import Mathlib

/-
Verification of the dtfabric data-type definition model.

Shallow embedding of src/dtfabric/definitions.py and
src/dtfabric/data_types.py.  Python classes of the definition hierarchy
become constructors of one closed inductive type; the polymorphic
operations GetByteSize, GetAttributeNames and IsComposite become total
recursive functions over that type.  Python None is modelled by Option;
Python truthiness of optional integers (None and 0 are both falsy) is
made explicit where the source relies on it.  The mutable cache of
StructureDefinition and the mutable value registry of
EnumerationDefinition are modelled as explicit state records with
state-passing operations.
-/

namespace DtFabric

/-- Byte-order string constants of definitions.py. -/
def BYTE_ORDER_BIG_ENDIAN : String := "big-endian"

def BYTE_ORDER_LITTLE_ENDIAN : String := "little-endian"

def BYTE_ORDER_MIDDLE_ENDIAN : String := "middle-endian"

def BYTE_ORDER_NATIVE : String := "native"

/-- The frozenset BYTE_ORDERS of definitions.py.  The source lists
big-endian, little-endian and native; BYTE_ORDER_MIDDLE_ENDIAN is defined
as a constant but is not an element of the frozenset. -/
def BYTE_ORDERS : List String :=
  [BYTE_ORDER_BIG_ENDIAN, BYTE_ORDER_LITTLE_ENDIAN, BYTE_ORDER_NATIVE]

def FORMAT_SIGNED : String := "signed"

def FORMAT_UNSIGNED : String := "unsigned"

/-- EnumerationValue of data_types.py: a record with no behavior. -/
structure EnumerationValue where
  name : String
  value : Int
  aliases : List String
  description : Option String
deriving DecidableEq, Repr

/-- The closed variant type of the DataTypeDefinition hierarchy of
data_types.py.  Each constructor is one concrete Python class and carries
the fields that class stores and that its behavior reads.  Optional
integer fields (Python attributes initialized to None) are Option Nat /
Option Int.  The element of a sequence, stream or string and the wrapped
definition of a structure member may be absent (Python None), which the
source anticipates with getattr defaults and truthiness guards. -/
inductive DataTypeDefinition where
  | BooleanDefinition (name : String) (size : Option Nat) (units : String)
      (false_value : Option Int) (true_value : Option Int)
  | CharacterDefinition (name : String) (size : Option Nat) (units : String)
  | ConstantDefinition (name : String) (value : Option Int)
  | EnumerationDefinition (name : String) (size : Option Nat) (units : String)
      (values : List EnumerationValue)
  | FloatingPointDefinition (name : String) (size : Option Nat) (units : String)
  | FormatDefinition (name : String)
  | IntegerDefinition (name : String) (size : Option Nat) (units : String)
      (format : String)
  | SequenceDefinition (name : String) (element : Option DataTypeDefinition)
      (elements_data_size : Option Nat) (number_of_elements : Option Nat)
  | StreamDefinition (name : String) (element : Option DataTypeDefinition)
      (elements_data_size : Option Nat) (number_of_elements : Option Nat)
  | StringDefinition (name : String) (element : Option DataTypeDefinition)
      (elements_data_size : Option Nat) (number_of_elements : Option Nat)
      (encoding : String) (string_terminator : Option Int)
  | StructureDefinition (name : String) (members : List DataTypeDefinition)
  | StructureMemberDefinition (name : String)
      (member : Option DataTypeDefinition)
  | UUIDDefinition (name : String) (size : Option Nat) (units : String)

/-- The name attribute every definition carries. -/
def defName : DataTypeDefinition → String
  | .BooleanDefinition name _ _ _ _ => name
  | .CharacterDefinition name _ _ => name
  | .ConstantDefinition name _ => name
  | .EnumerationDefinition name _ _ _ => name
  | .FloatingPointDefinition name _ _ => name
  | .FormatDefinition name => name
  | .IntegerDefinition name _ _ _ => name
  | .SequenceDefinition name _ _ _ => name
  | .StreamDefinition name _ _ _ => name
  | .StringDefinition name _ _ _ _ _ => name
  | .StructureDefinition name _ => name
  | .StructureMemberDefinition name _ => name
  | .UUIDDefinition name _ _ => name

/-- FixedSizeDataTypeDefinition.GetByteSize: if units == bytes return the
size attribute (itself possibly None), else fall off the function, which
in Python returns None. -/
def fixedByteSize (size : Option Nat) (units : String) : Option Nat :=
  if units = "bytes" then size else none

mutual

/-- GetByteSize of data_types.py, one case per concrete class.  Constants
and formats return None; fixed-size types use fixedByteSize; element
sequences use elementSequenceByteSize; structures (with an unset cache)
return None on an empty member list and otherwise the short-circuiting
member sum; structure members delegate to the wrapped definition or
return None. -/
def getByteSize : DataTypeDefinition → Option Nat
  | .BooleanDefinition _ size units _ _ => fixedByteSize size units
  | .CharacterDefinition _ size units => fixedByteSize size units
  | .ConstantDefinition _ _ => none
  | .EnumerationDefinition _ size units _ => fixedByteSize size units
  | .FloatingPointDefinition _ size units => fixedByteSize size units
  | .FormatDefinition _ => none
  | .IntegerDefinition _ size units _ => fixedByteSize size units
  | .SequenceDefinition _ element eds noe =>
      elementSequenceByteSize element eds noe
  | .StreamDefinition _ element eds noe =>
      elementSequenceByteSize element eds noe
  | .StringDefinition _ element eds noe _ _ =>
      elementSequenceByteSize element eds noe
  | .StructureDefinition _ members =>
      if members.isEmpty then none else sumMemberByteSizes 0 members
  | .StructureMemberDefinition _ (some member) => getByteSize member
  | .StructureMemberDefinition _ none => none
  | .UUIDDefinition _ size units => fixedByteSize size units

/-- ElementSequenceDataTypeDefinition.GetByteSize.  The guards follow
Python truthiness: an optional integer is truthy exactly when it is
present and nonzero.  With no element definition the whole body is
skipped and the result is None.  Otherwise a truthy elements_data_size is
returned as is; else with a truthy number_of_elements the element byte
size is computed and, when itself truthy, multiplied by the count; in
every remaining case the function falls off and returns None. -/
def elementSequenceByteSize :
    Option DataTypeDefinition → Option Nat → Option Nat → Option Nat
  | none, _, _ => none
  | some element, eds, noe =>
      if eds.getD 0 ≠ 0 then eds
      else if noe.getD 0 ≠ 0 then
        match getByteSize element with
        | some s => if s ≠ 0 then some (s * noe.getD 0) else none
        | none => none
      else none

/-- The member loop of StructureDefinition.GetByteSize: starting from the
accumulator 0, add each member byte size, short-circuiting to None on the
first member whose byte size is None. -/
def sumMemberByteSizes : Nat → List DataTypeDefinition → Option Nat
  | acc, [] => some acc
  | acc, member :: rest =>
      match getByteSize member with
      | none => none
      | some s => sumMemberByteSizes (acc + s) rest

end

/-- GetAttributeNames of data_types.py.  Fixed-size leaves expose the
single attribute value; constants expose constant; formats expose the
empty list; sequences, streams and strings expose elements, stream and
string; a structure (with an unset cache) lists the name attribute of
each member in order; a structure member delegates to the wrapped
definition when present and otherwise falls off the Python function,
returning None (modelled as the none case of the Option result). -/
def getAttributeNames : DataTypeDefinition → Option (List String)
  | .BooleanDefinition _ _ _ _ _ => some ["value"]
  | .CharacterDefinition _ _ _ => some ["value"]
  | .ConstantDefinition _ _ => some ["constant"]
  | .EnumerationDefinition _ _ _ _ => some ["value"]
  | .FloatingPointDefinition _ _ _ => some ["value"]
  | .FormatDefinition _ => some []
  | .IntegerDefinition _ _ _ _ => some ["value"]
  | .SequenceDefinition _ _ _ _ => some ["elements"]
  | .StreamDefinition _ _ _ _ => some ["stream"]
  | .StringDefinition _ _ _ _ _ _ => some ["string"]
  | .StructureDefinition _ members => some (members.map defName)
  | .StructureMemberDefinition _ (some member) => getAttributeNames member
  | .StructureMemberDefinition _ none => none
  | .UUIDDefinition _ _ _ => some ["value"]

/-- IsComposite of data_types.py: the class attribute IS_COMPOSITE per
variant, except for structure members, which compute the Python
conjunction of the wrapped definition and its IsComposite.  When the
wrapped definition is absent that conjunction evaluates to the falsy
Python value None, modelled here as false. -/
def isComposite : DataTypeDefinition → Bool
  | .BooleanDefinition _ _ _ _ _ => false
  | .CharacterDefinition _ _ _ => false
  | .ConstantDefinition _ _ => false
  | .EnumerationDefinition _ _ _ _ => false
  | .FloatingPointDefinition _ _ _ => false
  | .FormatDefinition _ => true
  | .IntegerDefinition _ _ _ _ => false
  | .SequenceDefinition _ _ _ _ => true
  | .StreamDefinition _ _ _ _ => true
  | .StringDefinition _ _ _ _ _ _ => true
  | .StructureDefinition _ _ => true
  | .StructureMemberDefinition _ (some member) => isComposite member
  | .StructureMemberDefinition _ none => false
  | .UUIDDefinition _ _ _ => true

/-- The byte order each definition holds right after construction,
assuming its sub-definitions still hold their own construction-time byte
order (bottom-up construction without overrides).  The base initializer
sets BYTE_ORDER_NATIVE; the sequence, stream, string and structure-member
initializers copy the wrapped definition's byte order via getattr with
default BYTE_ORDER_NATIVE. -/
def constructedByteOrder : DataTypeDefinition → String
  | .SequenceDefinition _ (some element) _ _ => constructedByteOrder element
  | .SequenceDefinition _ none _ _ => BYTE_ORDER_NATIVE
  | .StreamDefinition _ (some element) _ _ => constructedByteOrder element
  | .StreamDefinition _ none _ _ => BYTE_ORDER_NATIVE
  | .StringDefinition _ (some element) _ _ _ _ => constructedByteOrder element
  | .StringDefinition _ none _ _ _ _ => BYTE_ORDER_NATIVE
  | .StructureMemberDefinition _ (some member) => constructedByteOrder member
  | .StructureMemberDefinition _ none => BYTE_ORDER_NATIVE
  | _ => BYTE_ORDER_NATIVE

/-- UUIDDefinition.init: a fixed-size definition whose size attribute is
set to 16, units remaining the inherited default bytes. -/
def mkUUIDDefinition (name : String) : DataTypeDefinition :=
  .UUIDDefinition name (some 16) "bytes"

/-- The byte sizes of a list of members: some list of sizes when every
member byte size is determined, none as soon as any member byte size is
undetermined.  Specification-side companion of sumMemberByteSizes. -/
def mapByteSizes : List DataTypeDefinition → Option (List Nat)
  | [] => some []
  | member :: rest =>
      match getByteSize member, mapByteSizes rest with
      | some s, some sizes => some (s :: sizes)
      | _, _ => none

/-- The mutable state of a StructureDefinition of data_types.py: the two
lazily computed caches (Python attributes initialized to None) and the
ordered member list. -/
structure StructureState where
  name : String
  attribute_names_cache : Option (List String)
  byte_size_cache : Option Nat
  members : List DataTypeDefinition

/-- StructureDefinition.init: both caches unset, no members. -/
def StructureState.init (name : String) : StructureState :=
  ⟨name, none, none, []⟩

/-- StructureDefinition.AddMemberDefinition: reset both caches to None
and append the member to the ordered member list. -/
def StructureState.AddMemberDefinition (s : StructureState)
    (member_definition : DataTypeDefinition) : StructureState :=
  { s with attribute_names_cache := none, byte_size_cache := none,
           members := s.members ++ [member_definition] }

/-- StructureDefinition.GetByteSize with its cache: when the cache is
unset and the member list nonempty, run the accumulating member loop and
store its result; in every other case return the cache as is.  Returns
the result together with the updated state. -/
def StructureState.GetByteSize (s : StructureState) :
    Option Nat × StructureState :=
  match s.byte_size_cache, s.members with
  | none, _ :: _ =>
      let result := sumMemberByteSizes 0 s.members
      (result, { s with byte_size_cache := result })
  | _, _ => (s.byte_size_cache, s)

/-- StructureDefinition.GetAttributeNames with its cache: when the cache
is unset, collect the name of each member in order and store the list;
otherwise return the cached list. -/
def StructureState.GetAttributeNames (s : StructureState) :
    List String × StructureState :=
  match s.attribute_names_cache with
  | none =>
      let result := s.members.map defName
      (result, { s with attribute_names_cache := some result })
  | some names => (names, s)

/-- The mutable state of an EnumerationDefinition of data_types.py: the
ordered value list and the name-keyed dict, modelled as an association
list in insertion order. -/
structure EnumerationState where
  values : List EnumerationValue
  values_per_name : List (String × EnumerationValue)
deriving DecidableEq, Repr

/-- Lookup in the name-keyed dict model: first entry with the given key. -/
def dictLookup : List (String × EnumerationValue) → String →
    Option EnumerationValue
  | [], _ => none
  | (key, val) :: rest, name =>
      if key = name then some val else dictLookup rest name

/-- EnumerationDefinition.init: empty value list, empty dict. -/
def EnumerationState.init : EnumerationState := ⟨[], []⟩

/-- EnumerationDefinition.AddValue: raise KeyError when the name is
already a key of values_per_name, leaving the state untouched; otherwise
build the EnumerationValue (normalizing absent aliases to the empty
list), append it to values and insert it into values_per_name. -/
def EnumerationState.AddValue (s : EnumerationState) (name : String)
    (value : Int) (aliases : Option (List String))
    (description : Option String) : Except String EnumerationState :=
  if (dictLookup s.values_per_name name).isSome then
    Except.error ("Value: " ++ name ++ " already exists.")
  else
    Except.ok
      { values := s.values ++ [⟨name, value, aliases.getD [], description⟩],
        values_per_name :=
          s.values_per_name ++
            [(name, ⟨name, value, aliases.getD [], description⟩)] }

/-- One AddValue call as data, for reasoning about call sequences. -/
structure AddValueOp where
  name : String
  value : Int
  aliases : Option (List String)
  description : Option String
deriving DecidableEq, Repr

/-- Apply one AddValue call to the state.  A raised KeyError propagates
to the caller and leaves the Python object unchanged, so the error case
keeps the state. -/
def EnumerationState.applyAddValue (s : EnumerationState)
    (op : AddValueOp) : EnumerationState :=
  match s.AddValue op.name op.value op.aliases op.description with
  | Except.ok s2 => s2
  | Except.error _ => s

/-- A 2-byte unsigned integer definition, used as a concrete example. -/
def uint16def : DataTypeDefinition :=
  .IntegerDefinition "uint16" (some 2) "bytes" FORMAT_UNSIGNED

/-- A 4-byte unsigned integer definition, used as a concrete example. -/
def uint32def : DataTypeDefinition :=
  .IntegerDefinition "uint32" (some 4) "bytes" FORMAT_UNSIGNED

/-- An integer definition whose declared size is 0 bytes, used as a
concrete example of a determined-but-zero byte size. -/
def zeroSizeIntDef : DataTypeDefinition :=
  .IntegerDefinition "zero" (some 0) "bytes" FORMAT_UNSIGNED

/-- Claim C6: IsComposite is true for the structure, format, string,
sequence, stream and UUID definition variants and false for the boolean,
character, integer, floating-point, constant and enumeration variants. -/
theorem is_composite_by_variant (nm fmt enc units : String)
    (size : Option Nat) (fv tv value st : Option Int)
    (values : List EnumerationValue) (members : List DataTypeDefinition)
    (element : Option DataTypeDefinition) (eds noe : Option Nat) :
    isComposite (.StructureDefinition nm members) = true ∧
    isComposite (.FormatDefinition nm) = true ∧
    isComposite (.StringDefinition nm element eds noe enc st) = true ∧
    isComposite (.SequenceDefinition nm element eds noe) = true ∧
    isComposite (.StreamDefinition nm element eds noe) = true ∧
    isComposite (.UUIDDefinition nm size units) = true ∧
    isComposite (.BooleanDefinition nm size units fv tv) = false ∧
    isComposite (.CharacterDefinition nm size units) = false ∧
    isComposite (.IntegerDefinition nm size units fmt) = false ∧
    isComposite (.FloatingPointDefinition nm size units) = false ∧
    isComposite (.ConstantDefinition nm value) = false ∧
    isComposite (.EnumerationDefinition nm size units values) = false := by
  simp [isComposite]

/-- Claim C7: for every fixed-size data type definition, when units is
the string bytes, GetByteSize returns exactly the declared size
attribute, and for any other units it returns None. -/
theorem fixed_size_byte_size_units (nm fmt units : String)
    (size : Option Nat) (fv tv : Option Int)
    (values : List EnumerationValue) :
    (units = "bytes" →
      getByteSize (.BooleanDefinition nm size units fv tv) = size ∧
      getByteSize (.CharacterDefinition nm size units) = size ∧
      getByteSize (.EnumerationDefinition nm size units values) = size ∧
      getByteSize (.FloatingPointDefinition nm size units) = size ∧
      getByteSize (.IntegerDefinition nm size units fmt) = size ∧
      getByteSize (.UUIDDefinition nm size units) = size) ∧
    (units ≠ "bytes" →
      getByteSize (.BooleanDefinition nm size units fv tv) = none ∧
      getByteSize (.CharacterDefinition nm size units) = none ∧
      getByteSize (.EnumerationDefinition nm size units values) = none ∧
      getByteSize (.FloatingPointDefinition nm size units) = none ∧
      getByteSize (.IntegerDefinition nm size units fmt) = none ∧
      getByteSize (.UUIDDefinition nm size units) = none) := by
  constructor
  · intro h
    subst h
    simp [getByteSize, fixedByteSize]
  · intro h
    simp [getByteSize, fixedByteSize, h]

/-- Witness for claim C7 at a concrete 4-byte integer: with units bytes
the byte size is 4, with units bits it is undetermined. -/
theorem fixed_size_byte_size_units_witness :
    getByteSize (.IntegerDefinition "int32" (some 4) "bytes" "signed")
      = some 4 ∧
    getByteSize (.IntegerDefinition "int32" (some 4) "bits" "signed")
      = none := by
  constructor
  · exact ((fixed_size_byte_size_units "int32" "signed" "bytes" (some 4)
      none none []).1 rfl).2.2.2.2.1
  · exact ((fixed_size_byte_size_units "int32" "signed" "bits" (some 4)
      none none []).2 (by decide)).2.2.2.2.1

/-- Counterexample for claim C5: a structure member definition with no
wrapped definition returns None from GetAttributeNames, not the empty
sequence the claim states. -/
theorem structure_member_attribute_names_cex :
    getAttributeNames (.StructureMemberDefinition "member" none)
      ≠ some [] := by
  simp [getAttributeNames]

/-- Claim C5 as amended: the three capability queries of a structure
member delegate to the wrapped definition when present; when no wrapped
definition is present the byte size is undetermined, GetAttributeNames
returns None (an absent result, not an empty sequence and not an error)
and the member is not composite. -/
theorem structure_member_delegation (nm : String)
    (d : DataTypeDefinition) :
    getAttributeNames (.StructureMemberDefinition nm (some d))
      = getAttributeNames d ∧
    getByteSize (.StructureMemberDefinition nm (some d))
      = getByteSize d ∧
    isComposite (.StructureMemberDefinition nm (some d))
      = isComposite d ∧
    getAttributeNames (.StructureMemberDefinition nm none) = none ∧
    getByteSize (.StructureMemberDefinition nm none) = none ∧
    isComposite (.StructureMemberDefinition nm none) = false := by
  refine ⟨?_, ?_, ?_, ?_, ?_, ?_⟩ <;>
    simp [getAttributeNames, getByteSize, isComposite]

/-- Counterexample for claim C2: an element sequence with no element
definition but an explicit elements_data_size of 5 returns None, not the
explicit size the claim states, because the whole resolution body is
guarded by the presence of the element definition. -/
theorem element_sequence_byte_size_no_element_cex :
    getByteSize (.SequenceDefinition "data" none (some 5) (some 3))
      = none ∧
    getByteSize (.SequenceDefinition "data" none (some 5) (some 3))
      ≠ some 5 := by
  refine ⟨?_, ?_⟩ <;> simp [getByteSize, elementSequenceByteSize]

/-- Claim C2 as amended: with no element definition the byte size is
None whatever the other fields hold; with an element definition present,
a nonzero elements_data_size literal is returned first, else a nonzero
number_of_elements literal combined with a determined nonzero element
byte size returns their product, else the result is None; streams and
strings resolve exactly like sequences. -/
theorem element_sequence_byte_size_resolution (nm enc : String)
    (st : Option Int) (e : DataTypeDefinition) (eds noe : Option Nat) :
    getByteSize (.SequenceDefinition nm none eds noe) = none ∧
    getByteSize (.StreamDefinition nm none eds noe) = none ∧
    getByteSize (.StringDefinition nm none eds noe enc st) = none ∧
    (∀ s, eds = some s → s ≠ 0 →
      getByteSize (.SequenceDefinition nm (some e) eds noe) = some s) ∧
    (∀ k s, (eds = none ∨ eds = some 0) → noe = some k → k ≠ 0 →
      getByteSize e = some s → s ≠ 0 →
      getByteSize (.SequenceDefinition nm (some e) eds noe)
        = some (s * k)) ∧
    ((eds = none ∨ eds = some 0) →
      (noe = none ∨ noe = some 0 ∨ getByteSize e = none ∨
        getByteSize e = some 0) →
      getByteSize (.SequenceDefinition nm (some e) eds noe) = none) ∧
    getByteSize (.StreamDefinition nm (some e) eds noe)
      = getByteSize (.SequenceDefinition nm (some e) eds noe) ∧
    getByteSize (.StringDefinition nm (some e) eds noe enc st)
      = getByteSize (.SequenceDefinition nm (some e) eds noe) := by
  refine ⟨?_, ?_, ?_, ?_, ?_, ?_, ?_, ?_⟩
  · simp [getByteSize, elementSequenceByteSize]
  · simp [getByteSize, elementSequenceByteSize]
  · simp [getByteSize, elementSequenceByteSize]
  · intro s hs hs0
    subst hs
    simp [getByteSize, elementSequenceByteSize, hs0]
  · intro k s heds hk hk0 hge hs0
    subst hk
    rcases heds with h | h <;> subst h <;>
      simp [getByteSize, elementSequenceByteSize, hk0, hge, hs0]
  · intro heds hrest
    have h2 : eds.getD 0 = 0 := by
      rcases heds with h | h <;> subst h <;> simp
    rcases hrest with h | h | h | h <;>
      simp [getByteSize, elementSequenceByteSize, h2, h]
  · simp [getByteSize]
  · simp [getByteSize]

/-- Witness for the amended claim C2: a sequence of 5 elements of a
2-byte integer with no explicit data size reports byte size 10. -/
theorem element_sequence_byte_size_resolution_witness :
    getByteSize
        (.SequenceDefinition "vector" (some uint16def) none (some 5))
      = some 10 := by
  have h := ((element_sequence_byte_size_resolution "vector" "ascii" none
      uint16def none (some 5)).2.2.2.2.1) 5 2 (Or.inl rfl) rfl
      (by decide) (by rfl) (by decide)
  simpa using h

/-- Counterexample for claim C9: an element sequence whose explicit
elements_data_size is 0 does not return None when the count path still
applies; with 3 elements of a 4-byte integer it returns 12. -/
theorem element_sequence_zero_data_size_cex :
    getByteSize
        (.SequenceDefinition "data" (some uint32def) (some 0) (some 3))
      = some 12 ∧
    getByteSize
        (.SequenceDefinition "data" (some uint32def) (some 0) (some 3))
      ≠ none := by
  refine ⟨?_, ?_⟩ <;>
    simp [getByteSize, elementSequenceByteSize, uint32def, fixedByteSize]

/-- Claim C9 as amended: a zero value is treated as an absent value
field by field, not as a global forcing of None: a zero
elements_data_size behaves exactly as an unset one (the resolution falls
through to the count path), a zero number_of_elements behaves exactly as
an unset one, a zero or undetermined element byte size together with no
usable explicit size yields None, and GetByteSize of an element sequence
never returns 0. -/
theorem element_sequence_zero_treated_as_absent (nm : String)
    (e : DataTypeDefinition) (eds noe : Option Nat) :
    getByteSize (.SequenceDefinition nm (some e) (some 0) noe)
      = getByteSize (.SequenceDefinition nm (some e) none noe) ∧
    getByteSize (.SequenceDefinition nm (some e) eds (some 0))
      = getByteSize (.SequenceDefinition nm (some e) eds none) ∧
    ((eds = none ∨ eds = some 0) →
      (getByteSize e = none ∨ getByteSize e = some 0) →
      getByteSize (.SequenceDefinition nm (some e) eds noe) = none) ∧
    getByteSize (.SequenceDefinition nm (some e) eds noe) ≠ some 0 := by
  refine ⟨?_, ?_, ?_, ?_⟩
  · simp [getByteSize, elementSequenceByteSize]
  · rcases eds with _ | s
    · simp [getByteSize, elementSequenceByteSize]
    · by_cases hs : s = 0
      · subst hs
        simp [getByteSize, elementSequenceByteSize]
      · simp [getByteSize, elementSequenceByteSize, hs]
  · intro heds hge
    have h2 : eds.getD 0 = 0 := by
      rcases heds with h | h <;> subst h <;> simp
    rcases hge with h | h <;>
      simp [getByteSize, elementSequenceByteSize, h2, h]
  · simp only [getByteSize, elementSequenceByteSize]
    split_ifs with h1 h2
    · rcases eds with _ | s
      · simp at h1
      · simp only [Option.getD_some] at h1
        simp [h1]
    · cases hge : getByteSize e with
      | none => simp
      | some s =>
          by_cases hs : s = 0
          · simp [hs]
          · simp [hs, Nat.mul_eq_zero, h2]
    · simp

/-- Witness for the amended claim C9: with no explicit data size and 3
elements of a determined 0-byte integer, the byte size is None. -/
theorem element_sequence_zero_treated_as_absent_witness :
    getByteSize
        (.SequenceDefinition "items" (some zeroSizeIntDef) none (some 3))
      = none := by
  exact ((element_sequence_zero_treated_as_absent "items" zeroSizeIntDef
      none (some 3)).2.2.1) (Or.inl rfl) (Or.inr (by rfl))

/-- Every definition's construction-time byte order is the native
default: the base initializer sets native and the inheriting
initializers only copy the wrapped definition's construction-time
value. -/
theorem constructedByteOrder_eq_native (d : DataTypeDefinition) :
    constructedByteOrder d = BYTE_ORDER_NATIVE := by
  induction d using constructedByteOrder.induct <;>
    simp [constructedByteOrder, *]

/-- Counterexample for claim C8: the middle-endian byte-order constant is
defined in definitions.py but is not an element of the BYTE_ORDERS
frozenset, so the closed set does not consist of the four values the
claim lists. -/
theorem byte_orders_middle_endian_cex :
    BYTE_ORDER_MIDDLE_ENDIAN ∉ BYTE_ORDERS := by decide

/-- Claim C8 as amended: the closed set BYTE_ORDERS consists of exactly
big-endian, little-endian and native (middle-endian is defined as a
constant but not included in the set), and every definition's byte order
at construction is the native default, a member of the closed set. -/
theorem byte_orders_closed_set (d : DataTypeDefinition) :
    BYTE_ORDERS =
      [BYTE_ORDER_BIG_ENDIAN, BYTE_ORDER_LITTLE_ENDIAN,
        BYTE_ORDER_NATIVE] ∧
    BYTE_ORDER_NATIVE ∈ BYTE_ORDERS ∧
    constructedByteOrder d ∈ BYTE_ORDERS := by
  refine ⟨rfl, by decide, ?_⟩
  rw [constructedByteOrder_eq_native]
  decide

/-- Claim C3: AddMemberDefinition unconditionally resets both the
attribute-name cache and the byte-size cache, and a subsequent
GetAttributeNames or GetByteSize call returns exactly what the current
member list (with the new member appended) yields: the member names in
order, and the fresh short-circuiting sum that the pure structure
resolution computes. -/
theorem add_member_definition_invalidates_caches (s : StructureState)
    (m : DataTypeDefinition) :
    (s.AddMemberDefinition m).attribute_names_cache = none ∧
    (s.AddMemberDefinition m).byte_size_cache = none ∧
    ((s.AddMemberDefinition m).GetAttributeNames).1
      = (s.members ++ [m]).map defName ∧
    ((s.AddMemberDefinition m).GetByteSize).1
      = getByteSize (.StructureDefinition s.name (s.members ++ [m])) := by
  refine ⟨rfl, rfl, ?_, ?_⟩
  · simp [StructureState.AddMemberDefinition,
      StructureState.GetAttributeNames]
  · rcases s with ⟨nm, an, bs, ms⟩
    cases ms <;>
      simp [StructureState.AddMemberDefinition, StructureState.GetByteSize,
        getByteSize]

/-- Claim C4: AddValue signals a duplicate-name error and leaves the
registry unchanged when the name is already in the name index, and
otherwise appends the new value to the ordered collection and inserts it
into the name index. -/
theorem add_value_duplicate_rejected (s : EnumerationState) (nm : String)
    (v : Int) (al : Option (List String)) (ds : Option String) :
    ((dictLookup s.values_per_name nm).isSome = true →
      (∃ msg, s.AddValue nm v al ds = Except.error msg) ∧
      s.applyAddValue ⟨nm, v, al, ds⟩ = s) ∧
    ((dictLookup s.values_per_name nm).isSome = false →
      s.AddValue nm v al ds = Except.ok
        { values := s.values ++ [⟨nm, v, al.getD [], ds⟩],
          values_per_name :=
            s.values_per_name ++ [(nm, ⟨nm, v, al.getD [], ds⟩)] }) := by
  constructor
  · intro h
    constructor
    · refine ⟨"Value: " ++ nm ++ " already exists.", ?_⟩
      simp [EnumerationState.AddValue, h]
    · simp [EnumerationState.applyAddValue, EnumerationState.AddValue, h]
  · intro h
    simp [EnumerationState.AddValue, h]

/-- The registry after adding one value named a to a fresh enumeration. -/
def enumExample1 : EnumerationState :=
  EnumerationState.init.applyAddValue ⟨"a", 1, none, none⟩

/-- Witness for claim C4: after adding one value named a, adding a second
value with the same name leaves the registry unchanged and its size
remains 1. -/
theorem add_value_duplicate_rejected_witness :
    enumExample1.applyAddValue ⟨"a", 2, none, none⟩ = enumExample1 ∧
    enumExample1.values.length = 1 := by
  constructor
  · exact ((add_value_duplicate_rejected enumExample1 "a" 2 none
      none).1 (by decide)).2
  · decide

/-- The accumulating member loop equals the accumulator plus the sum of
the member byte sizes whenever all of them are determined, and None as
soon as one is undetermined. -/
theorem sumMemberByteSizes_eq (ms : List DataTypeDefinition) :
    ∀ acc, sumMemberByteSizes acc ms
      = (mapByteSizes ms).map (fun sizes => acc + sizes.sum) := by
  induction ms with
  | nil =>
      intro acc
      simp [sumMemberByteSizes, mapByteSizes]
  | cons m rest ih =>
      intro acc
      cases hm : getByteSize m with
      | none => simp [sumMemberByteSizes, mapByteSizes, hm]
      | some s =>
          rw [sumMemberByteSizes, hm]
          show sumMemberByteSizes (acc + s) rest = _
          rw [ih (acc + s)]
          cases hrest : mapByteSizes rest with
          | none => simp [mapByteSizes, hm, hrest]
          | some sizes => simp [mapByteSizes, hm, hrest, Nat.add_assoc]

/-- When every member byte size is determined, mapByteSizes collects
exactly those sizes in order. -/
theorem mapByteSizes_eq_some_of_all (ms : List DataTypeDefinition)
    (h : ∀ m ∈ ms, (getByteSize m).isSome) :
    mapByteSizes ms
      = some (ms.map (fun m => (getByteSize m).getD 0)) := by
  induction ms with
  | nil => simp [mapByteSizes]
  | cons m rest ih =>
      have hm := h m (List.mem_cons_self m rest)
      obtain ⟨s, hs⟩ := Option.isSome_iff_exists.mp hm
      have hrest := ih (fun x hx => h x (List.mem_cons_of_mem m hx))
      simp [mapByteSizes, hs, hrest]

/-- When some member byte size is undetermined, mapByteSizes is None. -/
theorem mapByteSizes_eq_none_of_exists (ms : List DataTypeDefinition)
    (h : ∃ m ∈ ms, getByteSize m = none) :
    mapByteSizes ms = none := by
  induction ms with
  | nil => simp at h
  | cons m rest ih =>
      obtain ⟨x, hx, hxnone⟩ := h
      rcases List.mem_cons.mp hx with hx1 | hx1
      · subst hx1
        simp [mapByteSizes, hxnone]
      · rw [mapByteSizes, ih ⟨x, hx1, hxnone⟩]
        cases getByteSize m <;> simp

/-- StructureDefinition.GetByteSize in closed form: None on the empty
member list, otherwise the sum of the determined member byte sizes, or
None when any of them is undetermined. -/
theorem structure_getByteSize_eq (nm : String)
    (ms : List DataTypeDefinition) :
    getByteSize (.StructureDefinition nm ms)
      = if ms.isEmpty then none
        else (mapByteSizes ms).map List.sum := by
  rw [getByteSize, sumMemberByteSizes_eq ms 0]
  cases mapByteSizes ms <;> simp

/-- Claim C1: a structure's byte size is None on an empty member list,
the sum of the members' byte sizes when every one of them is determined,
None as soon as any member byte size is undetermined, and invariant
under any permutation of the member list; members are arbitrary
definitions, so arbitrarily nested structures of structures are
covered. -/
theorem structure_byte_size_sum (nm : String)
    (ms : List DataTypeDefinition) :
    (ms = [] → getByteSize (.StructureDefinition nm ms) = none) ∧
    (ms ≠ [] → (∀ m ∈ ms, (getByteSize m).isSome) →
      getByteSize (.StructureDefinition nm ms)
        = some (ms.map (fun m => (getByteSize m).getD 0)).sum) ∧
    ((∃ m ∈ ms, getByteSize m = none) →
      getByteSize (.StructureDefinition nm ms) = none) ∧
    (∀ nm2 ms2, ms.Perm ms2 →
      getByteSize (.StructureDefinition nm ms)
        = getByteSize (.StructureDefinition nm2 ms2)) := by
  refine ⟨?_, ?_, ?_, ?_⟩
  · intro h
    subst h
    simp [structure_getByteSize_eq]
  · intro hne hall
    rw [structure_getByteSize_eq, mapByteSizes_eq_some_of_all ms hall]
    simp [hne]
  · intro hex
    rw [structure_getByteSize_eq, mapByteSizes_eq_none_of_exists ms hex]
    simp
  · intro nm2 ms2 hp
    rw [structure_getByteSize_eq, structure_getByteSize_eq]
    by_cases hemp : ms = []
    · subst hemp
      have : ms2 = [] := hp.symm.eq_nil
      subst this
      simp
    · have hemp2 : ms2 ≠ [] := by
        intro h2
        subst h2
        exact hemp hp.eq_nil
      by_cases hall : ∀ m ∈ ms, (getByteSize m).isSome
      · have hall2 : ∀ m ∈ ms2, (getByteSize m).isSome := by
          intro m hm
          exact hall m (hp.mem_iff.mpr hm)
        rw [mapByteSizes_eq_some_of_all ms hall,
          mapByteSizes_eq_some_of_all ms2 hall2]
        have hsum := (hp.map (fun m => (getByteSize m).getD 0)).sum_eq
        simp [hemp, hemp2, hsum]
      · push_neg at hall
        obtain ⟨x, hx, hxn⟩ := hall
        have hxnone : getByteSize x = none :=
          Option.not_isSome_iff_eq_none.mp hxn
        have hex2 : ∃ m ∈ ms2, getByteSize m = none :=
          ⟨x, hp.mem_iff.mp hx, hxnone⟩
        rw [mapByteSizes_eq_none_of_exists ms ⟨x, hx, hxnone⟩,
          mapByteSizes_eq_none_of_exists ms2 hex2]
        simp

/-- A structure member wrapping a 4-byte unsigned integer, named magic. -/
def wMagicMember : DataTypeDefinition :=
  .StructureMemberDefinition "magic" (some uint32def)

/-- A structure member wrapping a 16-byte UUID, named id. -/
def wIdMember : DataTypeDefinition :=
  .StructureMemberDefinition "id" (some (mkUUIDDefinition "uuid"))

/-- A structure member wrapping a nested structure of the two members
above, for the nesting part of the structure byte-size witness. -/
def wInnerMember : DataTypeDefinition :=
  .StructureMemberDefinition "inner"
    (some (.StructureDefinition "inner_t" [wMagicMember, wIdMember]))

/-- Witness for claim C1: the header example of the specification (a
4-byte integer plus a 16-byte UUID) has byte size 20, the permuted
member list gives the same size, and a structure nesting that structure
as a member next to the integer has byte size 24. -/
theorem structure_byte_size_sum_witness :
    getByteSize (.StructureDefinition "header" [wMagicMember, wIdMember])
      = some 20 ∧
    getByteSize (.StructureDefinition "header2" [wIdMember, wMagicMember])
      = some 20 ∧
    getByteSize (.StructureDefinition "outer" [wMagicMember, wInnerMember])
      = some 24 := by
  have hall1 : ∀ m ∈ [wMagicMember, wIdMember],
      (getByteSize m).isSome := by decide
  have h1 := (structure_byte_size_sum "header"
    [wMagicMember, wIdMember]).2.1 (by simp) hall1
  have hp : List.Perm [wMagicMember, wIdMember]
      [wIdMember, wMagicMember] :=
    List.Perm.swap wIdMember wMagicMember []
  have h2 := (structure_byte_size_sum "header"
    [wMagicMember, wIdMember]).2.2.2 "header2" [wIdMember, wMagicMember] hp
  have hall3 : ∀ m ∈ [wMagicMember, wInnerMember],
      (getByteSize m).isSome := by decide
  have h3 := (structure_byte_size_sum "outer"
    [wMagicMember, wInnerMember]).2.1 (by simp) hall3
  refine ⟨?_, ?_, ?_⟩
  · exact h1.trans (by decide)
  · exact h2.symm.trans (h1.trans (by decide))
  · exact h3.trans (by decide)

/-- When a key is found in the first part of an association list, the
lookup in the concatenation finds the same entry. -/
theorem dictLookup_append_of_some (l1 l2 : List (String × EnumerationValue))
    (n : String) (v : EnumerationValue) (h : dictLookup l1 n = some v) :
    dictLookup (l1 ++ l2) n = some v := by
  induction l1 with
  | nil => simp [dictLookup] at h
  | cons p rest ih =>
      rcases p with ⟨k, w⟩
      by_cases hk : k = n
      · rw [dictLookup, if_pos hk] at h
        simp [dictLookup, hk, h]
      · rw [dictLookup, if_neg hk] at h
        simp [dictLookup, hk, ih h]

/-- When a key is absent from the first part of an association list, the
lookup in the concatenation continues in the second part. -/
theorem dictLookup_append_of_none (l1 l2 : List (String × EnumerationValue))
    (n : String) (h : dictLookup l1 n = none) :
    dictLookup (l1 ++ l2) n = dictLookup l2 n := by
  induction l1 with
  | nil => simp
  | cons p rest ih =>
      rcases p with ⟨k, w⟩
      by_cases hk : k = n
      · rw [dictLookup, if_pos hk] at h
        simp at h
      · rw [dictLookup, if_neg hk] at h
        simp [dictLookup, hk, ih h]

/-- A lookup misses exactly when the key is not among the stored keys. -/
theorem dictLookup_eq_none_iff (l : List (String × EnumerationValue))
    (n : String) : dictLookup l n = none ↔ n ∉ l.map Prod.fst := by
  induction l with
  | nil => simp [dictLookup]
  | cons p rest ih =>
      rcases p with ⟨k, w⟩
      rw [List.map_cons]
      by_cases hk : k = n
      · subst hk
        simp [dictLookup]
      · rw [dictLookup, if_neg hk, ih]
        simp [List.mem_cons, Ne.symm hk]

/-- Consistency of the enumeration registry: the ordered value list and
the name index have the same number of entries, every stored value is
found in the index under its own name, every index entry's key is the
name carried by its value, and the stored names are pairwise distinct
(the index keys being exactly the stored names in order). -/
def EnumInvariant (s : EnumerationState) : Prop :=
  s.values.length = s.values_per_name.length ∧
  s.values_per_name.map Prod.fst = s.values.map EnumerationValue.name ∧
  (∀ v ∈ s.values, dictLookup s.values_per_name v.name = some v) ∧
  (∀ p ∈ s.values_per_name, (p.2).name = p.1) ∧
  (s.values.map EnumerationValue.name).Nodup

/-- One AddValue call, successful or rejected, preserves registry
consistency. -/
theorem enumInvariant_applyAddValue (s : EnumerationState)
    (op : AddValueOp) (h : EnumInvariant s) :
    EnumInvariant (s.applyAddValue op) := by
  obtain ⟨hlen, hkeys, hlook, hpair, hnodup⟩ := h
  by_cases hdup : (dictLookup s.values_per_name op.name).isSome
  · have heq : s.applyAddValue op = s := by
      simp [EnumerationState.applyAddValue, EnumerationState.AddValue,
        hdup]
    rw [heq]
    exact ⟨hlen, hkeys, hlook, hpair, hnodup⟩
  · have hnone : dictLookup s.values_per_name op.name = none := by
      cases hx : dictLookup s.values_per_name op.name
      · rfl
      · rw [hx] at hdup
        simp at hdup
    have hfresh : op.name ∉ s.values_per_name.map Prod.fst :=
      (dictLookup_eq_none_iff _ _).mp hnone
    have hstep : s.applyAddValue op =
        { values := s.values ++
            [⟨op.name, op.value, op.aliases.getD [], op.description⟩],
          values_per_name := s.values_per_name ++
            [(op.name,
              ⟨op.name, op.value, op.aliases.getD [],
                op.description⟩)] } := by
      simp [EnumerationState.applyAddValue, EnumerationState.AddValue,
        hdup]
    rw [hstep]
    refine ⟨?_, ?_, ?_, ?_, ?_⟩
    · simp [hlen]
    · simp [hkeys]
    · intro v hv
      rcases List.mem_append.mp hv with hv1 | hv1
      · exact dictLookup_append_of_some _ _ _ _ (hlook v hv1)
      · simp at hv1
        subst hv1
        rw [dictLookup_append_of_none _ _ _ hnone]
        simp [dictLookup]
    · intro p hp
      rcases List.mem_append.mp hp with hp1 | hp1
      · exact hpair p hp1
      · simp at hp1
        subst hp1
        rfl
    · simp only [List.map_append, List.map_cons, List.map_nil]
      rw [List.nodup_append]
      refine ⟨hnodup, List.nodup_singleton _, ?_⟩
      intro a ha hb
      simp at hb
      subst hb
      rw [← hkeys] at ha
      exact hfresh ha

/-- The fresh registry is consistent. -/
theorem enumInvariant_init : EnumInvariant EnumerationState.init := by
  refine ⟨rfl, rfl, ?_, ?_, ?_⟩ <;> simp [EnumerationState.init]

/-- Claim C10: after any sequence of AddValue calls, successful or
rejected, starting from the fresh registry, the ordered value list and
the name index remain consistent: equal sizes, every stored value
registered under its own name, index keys matching the names of their
values, and pairwise distinct names. -/
theorem enumeration_registry_consistent (ops : List AddValueOp) :
    EnumInvariant
      (ops.foldl EnumerationState.applyAddValue
        EnumerationState.init) := by
  have hgen : ∀ (l : List AddValueOp) (s : EnumerationState),
      EnumInvariant s →
      EnumInvariant (l.foldl EnumerationState.applyAddValue s) := by
    intro l
    induction l with
    | nil =>
        intro s hs
        exact hs
    | cons op rest ih =>
        intro s hs
        exact ih _ (enumInvariant_applyAddValue s op hs)
  exact hgen ops _ enumInvariant_init

end DtFabric
